import Mathlib

/-!
Verification development for the status synchronization engine of
`bedrock-vc-issuer-coordinator-storage`.

The JavaScript source is shallowly embedded: JS numbers that hold record
sequence counters and status-list indices become `Int` (JS `%` is the
truncated remainder `Int.tmod`, `Math.floor(a / b)` is `Int.fdiv`), JS
objects become structures, thrown `BedrockError`s become `Except` error
values carrying the error `name`, `message` and `details.httpStatusCode`,
and the MongoDB collections behind the two record stores become lists of
records with `updateOne` replacing the first query match.
-/

/-- Thrown JS error (`BedrockError`, `Error` or `TypeError`) modelled by its
`name`, `message` and `details.httpStatusCode` (0 when the thrown error
carries no HTTP status code); `cause` chains are not modelled. -/
structure BError where
  name : String
  message : String
  httpStatusCode : Nat
deriving DecidableEq, Repr

/-- Credential status entry object as consumed by `expandCredentialStatus`
(src/lib/utils.js) and `_matchCredentialStatus` (src/lib/sync.js): a `type`
tag plus the fields of the full (`BitstringStatusListEntry`) and compact
(`TerseBitstringStatusListEntry`) forms, each optional as in the loose JS
object. -/
structure StatusEntry where
  type : String
  statusPurpose : Option String
  statusListCredential : Option String
  statusListIndex : Option String
  terseStatusListBaseUrl : Option String
  terseStatusListIndex : Option Int
deriving DecidableEq, Repr

/-- Constant `DEFAULT_TERSE_LIST_LENGTH` from src/lib/utils.js. -/
def DEFAULT_TERSE_LIST_LENGTH : Int := 67108864

/-- Embedding of `expandCredentialStatus` (src/lib/utils.js lines 57-103).
The JS dynamic type guards on `credentialStatus`, `statusPurpose` and
`listLength` hold by typing here; the guards on the two terse fields are
kept because the loose entry object models them as optional. JS `%` is
`Int.tmod` and `Math.floor` of the quotient is `Int.fdiv` (the JS NaN
behaviour at `listLength = 0` is outside the modelled domain; the list
length is a positive constant in use). -/
def expandCredentialStatus (credentialStatus : StatusEntry)
    (statusPurpose : String) (listLength : Int) : Except BError StatusEntry :=
  if credentialStatus.type = "BitstringStatusListEntry" then
    .ok credentialStatus
  else if credentialStatus.type ≠ "TerseBitstringStatusListEntry" then
    .error ⟨"Error",
      "Credential status entry type must be \"TerseBitstringStatusListEntry\".",
      0⟩
  else
    match credentialStatus.terseStatusListBaseUrl,
        credentialStatus.terseStatusListIndex with
    | none, _ =>
      .error ⟨"TypeError",
        "\"credentialStatus.terseStatusListBaseUrl\" must be a string.", 0⟩
    | some _, none =>
      .error ⟨"TypeError",
        "\"credentialStatus.terseStatusListIndex\" must be a number.", 0⟩
    | some baseUrl, some terseStatusListIndex =>
      let listIndex := Int.fdiv terseStatusListIndex listLength
      let statusListIndex := Int.tmod terseStatusListIndex listLength
      .ok ⟨"BitstringStatusListEntry", some statusPurpose,
        some (baseUrl ++ "/" ++ statusPurpose ++ "/" ++ toString listIndex),
        some (toString statusListIndex), none, none⟩

/-- VC reference record data (src/unnamed/part_012): `credentialId`, the
optimistic-concurrency `sequence`, and the remaining caller-defined fields
modelled as a key-value list. -/
structure Reference where
  credentialId : String
  sequence : Int
  fields : List (String × String)
deriving DecidableEq, Repr

/-- Paging cursor: the engine only inspects its `hasMore` flag; the rest is
caller-opaque and modelled by a single numeric payload as in the tests. -/
structure Cursor where
  hasMore : Bool
  index : Int
deriving DecidableEq, Repr

/-- Sync progress record data (src/lib/util.js sync-record store): `id`,
optimistic-concurrency `sequence` and the stored paging `cursor` (absent on
a freshly created record). -/
structure SyncData where
  id : String
  sequence : Int
  cursor : Option Cursor
deriving DecidableEq, Repr

/-- MongoDB `updateOne`: replace the first record matching the query, or
report that nothing matched. -/
def mongoUpdateOne {α : Type} (q : α → Bool) (repl : α) :
    List α → Option (List α)
  | [] => none
  | x :: xs =>
    if q x then some (repl :: xs)
    else (mongoUpdateOne q repl xs).map (fun l => x :: l)

/-- Lookup of a sync record by `sync.id` (first match, as `findOne`). -/
def findSync (coll : List SyncData) (id : String) : Option SyncData :=
  coll.find? (fun r => r.id == id)

/-- Lookup of a reference record by `reference.credentialId` (first match,
as `findOne`). -/
def findRef (coll : List Reference) (credentialId : String) :
    Option Reference :=
  coll.find? (fun r => r.credentialId == credentialId)

/-- Error thrown by `vcReferences.update` when its sequence-gated query
matches nothing (src/unnamed/part_012 lines 220-228); the `details.expected`
field is not modelled. -/
def refSequenceConflictError : BError :=
  ⟨"InvalidStateError",
    "Could not update VC reference. Sequence does not match existing record.",
    409⟩

/-- Error thrown by the sync-record `update` when its sequence-gated query
matches nothing (src/lib/util.js lines 187-196); the `details.expected`
field is not modelled. -/
def syncSequenceConflictError : BError :=
  ⟨"InvalidStateError",
    "Could not update external storage sync record. Sequence does not match existing record.",
    409⟩

/-- Error thrown by `vcReferences.get` when no record exists
(src/unnamed/part_012 lines 252-261). -/
def vcReferenceNotFoundError : BError :=
  ⟨"NotFoundError", "VC reference record not found.", 404⟩

namespace vcReferences

/-- Embedding of `vcReferences.update` (src/unnamed/part_012 lines 189-229):
`updateOne` with the query on `credentialId` and `sequence - 1`; the
(possibly unchanged) collection is returned alongside the outcome, the way
the database persists across the call. -/
def update (coll : List Reference) (reference : Reference) :
    Except BError Unit × List Reference :=
  match mongoUpdateOne
      (fun r => r.credentialId == reference.credentialId &&
        r.sequence == reference.sequence - 1)
      reference coll with
  | some coll2 => (.ok (), coll2)
  | none => (.error refSequenceConflictError, coll)

/-- Embedding of `vcReferences.get` (src/unnamed/part_012 lines 65-77,
239-263) without the read-through cache: the record or a not-found error. -/
def get (coll : List Reference) (credentialId : String) :
    Except BError Reference :=
  match findRef coll credentialId with
  | some r => .ok r
  | none => .error vcReferenceNotFoundError

end vcReferences

namespace syncRecords

/-- Embedding of the sync-record `update` (src/lib/util.js lines 158-197):
`updateOne` with the query on `sync.id` and `sync.sequence - 1`. -/
def update (coll : List SyncData) (sync : SyncData) :
    Except BError Unit × List SyncData :=
  match mongoUpdateOne
      (fun r => r.id == sync.id && r.sequence == sync.sequence - 1)
      sync coll with
  | some coll2 => (.ok (), coll2)
  | none => (.error syncSequenceConflictError, coll)

/-- Embedding of the sync-record `get` with `create = true`
(src/lib/util.js lines 112-144, 199-226): return the stored record, lazily
inserting a fresh `sequence := 0`, cursor-less record when absent. -/
def getCreate (coll : List SyncData) (id : String) :
    SyncData × List SyncData :=
  match findSync coll id with
  | some r => (r, coll)
  | none => (⟨id, 0, none⟩, coll ++ [⟨id, 0, none⟩])

end syncRecords

/-- Target credential-status descriptor inside a status update object
(`update.status.credentialStatus`): loose JS object with a `type` tag and an
optional `statusPurpose`. -/
structure StatusDescriptor where
  type : String
  statusPurpose : Option String
deriving DecidableEq, Repr

/-- The `update.status` sub-object of a status update: the target descriptor
and the boolean status `value` to set, each optional as in the loose JS
object. -/
structure StatusInfo where
  credentialStatus : Option StatusDescriptor
  value : Option Bool
deriving DecidableEq, Repr

/-- A zcap: either an opaque root-scoped token string or an object with an
explicit invocation target (`_assertCapability` accepts both). -/
inductive Capability
  | token (s : String)
  | obj (invocationTarget : String)
deriving DecidableEq, Repr

/-- Status update object passed by `getStatusUpdates` to the
`syncCredentialStatus` embedded here (src/lib/sync.js lines 761-842):
fields other than `credentialId` are optional so that the malformed
descriptors rejected by `_assertStatusUpdate` are representable. -/
structure StatusUpdate where
  credentialId : String
  newReferenceFields : Option (List (String × String))
  getCredentialCapability : Option Capability
  updateStatusCapability : Option Capability
  status : Option StatusInfo
deriving DecidableEq, Repr

/-- Embedding of `_assertStatusUpdate` (src/lib/sync.js lines 844-878) as a
boolean shape check: `status` and its `credentialStatus` present, the type
exactly `BitstringStatusListEntry`, `statusPurpose` a string, `value` a
boolean, both capabilities present (`newReferenceFields` is optional). -/
def validStatusUpdate (u : StatusUpdate) : Bool :=
  match u.status with
  | none => false
  | some si =>
    match si.credentialStatus with
    | none => false
    | some cs =>
      cs.type == "BitstringStatusListEntry" &&
      cs.statusPurpose.isSome &&
      si.value.isSome &&
      u.getCredentialCapability.isSome &&
      u.updateStatusCapability.isSome

/-- Error wrapping a failed descriptor shape check
(src/lib/sync.js lines 870-877). -/
def invalidStatusUpdateError : BError :=
  ⟨"OperationError", "Invalid status update object.", 500⟩

/-- Error wrapping any per-unit failure (src/lib/sync.js lines 963-968). -/
def couldNotSyncError (credentialId : String) : BError :=
  ⟨"OperationError",
    "Could not sync status for credential ID \"" ++ credentialId ++ "\".",
    500⟩

/-- Error thrown by `_matchCredentialStatus` when no status entry matches
(src/lib/sync.js lines 1021-1026). -/
def statusEntryNotFoundError (statusPurpose : String) : BError :=
  ⟨"NotFoundError",
    "Could not update verifiable credential status; status entry for status purpose \""
      ++ statusPurpose ++ "\" not found.",
    404⟩

/-- Verifiable credential as the engine sees it: its `credentialStatus`
value normalised to a list of entries (the source wraps a single entry into
an array before matching). -/
structure VC where
  credentialStatus : List StatusEntry
deriving DecidableEq, Repr

/-- The remote VC API reached through the zcap client: outcomes of the
credential fetch (`zcapClient.read`) and of the status write
(`zcapClient.write`), per credential. The write takes the matched status
entry and the optional boolean value exactly as the source posts them. -/
structure Env where
  fetchVC : String → Except BError VC
  writeStatus : String → StatusEntry → Option Bool → Except BError Unit

/-- Externally visible side effects of one change-unit, used to state
ordering and frame properties: the remote credential read, the remote
status write, and the local reference-record write. -/
inductive Event
  | remoteRead (credentialId : String)
  | remoteWrite (credentialId : String)
  | localWrite (credentialId : String)
deriving DecidableEq, Repr

/-- Embedding of `_matchCredentialStatus` (src/lib/sync.js lines 1003-1027):
`Array.find` returns the first entry whose type-specific condition holds; no
match is a not-found error. -/
def matchCredentialStatusSrc (vc : VC) (statusPurpose : String) :
    Except BError StatusEntry :=
  match vc.credentialStatus.find? (fun cs =>
      if cs.type == "TerseBitstringStatusListEntry" then
        statusPurpose == "revocation" || statusPurpose == "suspension"
      else if cs.type == "BitstringStatusListEntry" then
        cs.statusPurpose == some statusPurpose
      else false) with
  | some m => .ok m
  | none => .error (statusEntryNotFoundError statusPurpose)

/-- The `statusPurpose` a unit matches against, destructured from
`update.status.credentialStatus` (absent fields read as the empty string,
which only post-validation units never exhibit). -/
def statusPurposeOf (u : StatusUpdate) : String :=
  (Option.bind (Option.bind u.status
    (fun si => si.credentialStatus)) (fun cs => cs.statusPurpose)).getD ""

/-- The boolean `update.status.value` a unit posts to the status service. -/
def statusValueOf (u : StatusUpdate) : Option Bool :=
  Option.bind u.status (fun si => si.value)

/-- Result of executing one change-unit: the captured error if the unit
failed, the reference collection after the unit, and the unit's emitted
side-effect events in order. -/
structure UnitResult where
  err : Option BError
  refColl : List Reference
  events : List Event
deriving Repr

/-- Embedding of `_updateStatus` (src/lib/sync.js lines 913-970, with no
abort signal supplied): fetch the VC and read the reference record, match
the status entry, write the remote status, then replace the local reference
record with the new fields, `credentialId` and `sequence + 1`; every failure
is wrapped into the per-credential operation error. -/
def updateStatusCore (env : Env) (refColl : List Reference)
    (u : StatusUpdate) : UnitResult :=
  let c := u.credentialId
  match env.fetchVC c, vcReferences.get refColl c with
  | .error _, _ => ⟨some (couldNotSyncError c), refColl, [.remoteRead c]⟩
  | .ok _, .error _ => ⟨some (couldNotSyncError c), refColl, [.remoteRead c]⟩
  | .ok vc, .ok ref =>
    match matchCredentialStatusSrc vc (statusPurposeOf u) with
    | .error _ => ⟨some (couldNotSyncError c), refColl, [.remoteRead c]⟩
    | .ok entry =>
      match env.writeStatus c entry (statusValueOf u) with
      | .error _ =>
        ⟨some (couldNotSyncError c), refColl, [.remoteRead c, .remoteWrite c]⟩
      | .ok _ =>
        match vcReferences.update refColl
            ⟨c, ref.sequence + 1, (u.newReferenceFields).getD []⟩ with
        | (.error _, coll2) =>
          ⟨some (couldNotSyncError c), coll2,
            [.remoteRead c, .remoteWrite c, .localWrite c]⟩
        | (.ok _, coll2) =>
          ⟨none, coll2, [.remoteRead c, .remoteWrite c, .localWrite c]⟩

/-- One retry on failure, as queued by the engine:
`_updateStatus(...).catch(() => _updateStatus(...))`
(src/lib/sync.js lines 810-814). -/
def runWithRetry {α : Type} (core : List Reference → α → UnitResult)
    (refColl : List Reference) (u : α) : UnitResult :=
  let first := core refColl u
  match first.err with
  | none => first
  | some _ =>
    let second := core first.refColl u
    ⟨second.err, second.refColl, first.events ++ second.events⟩

/-- Result of driving a whole page of change-units: final reference
collection, concatenated events, count of units that succeeded, and the
error variable left by the queue (if any unit failed terminally). -/
structure ProcResult where
  refColl : List Reference
  events : List Event
  count : Nat
  err : Option BError
deriving Repr

/-- Embedding of the queue driving of `syncCredentialStatus`
(src/lib/sync.js lines 806-820), determinised to in-order execution: each
unit runs with one retry; a terminal failure overwrites the saved `error`
variable and the queue keeps running the remaining units; `updateCount`
counts completed units. -/
def srcProcess (env : Env) :
    List Reference → List StatusUpdate → ProcResult
  | refColl, [] => ⟨refColl, [], 0, none⟩
  | refColl, u :: us =>
    let r := runWithRetry (updateStatusCore env) refColl u
    let rest := srcProcess env r.refColl us
    match r.err with
    | none => ⟨rest.refColl, r.events ++ rest.events, rest.count + 1, rest.err⟩
    | some e =>
      ⟨rest.refColl, r.events ++ rest.events, rest.count,
        match rest.err with
        | some e2 => some e2
        | none => some e⟩

/-- Durable and observable state across one `syncCredentialStatus` call: the
sync-record collection, the reference-record collection, and the log of
emitted remote/local side effects. -/
structure CoordState where
  syncColl : List SyncData
  refColl : List Reference
  log : List Event
deriving Repr

/-- One page returned by the caller-supplied `getStatusUpdates`: the update
objects and the new cursor. -/
structure Page where
  updates : List StatusUpdate
  cursor : Cursor
deriving Repr

/-- Resolved value of `syncCredentialStatus` in the embedded source version
(src/lib/sync.js line 841): only `updateCount`. -/
structure SyncResult where
  updateCount : Nat
deriving DecidableEq, Repr

/-- Embedding of `syncCredentialStatus` (src/lib/sync.js lines 761-842, with
no abort signal supplied): load or lazily create the sync record, fetch one
page, validate every update object, drive the queue, and only when no error
was captured store the new cursor with `sequence + 1`; any error is
re-thrown after logging. -/
def syncCredentialStatusSrc (env : Env)
    (getStatusUpdates : Option Cursor → Page) (syncId : String)
    (st : CoordState) : Except BError SyncResult × CoordState :=
  let rec1 := syncRecords.getCreate st.syncColl syncId
  let syncRecord := rec1.1
  let syncColl1 := rec1.2
  let page := getStatusUpdates syncRecord.cursor
  if page.updates.all validStatusUpdate then
    let r := srcProcess env st.refColl page.updates
    match r.err with
    | some e => (.error e, ⟨syncColl1, r.refColl, st.log ++ r.events⟩)
    | none =>
      match syncRecords.update syncColl1
          ⟨syncRecord.id, syncRecord.sequence + 1, some page.cursor⟩ with
      | (.error e, coll2) =>
        (.error e, ⟨coll2, r.refColl, st.log ++ r.events⟩)
      | (.ok _, coll2) =>
        (.ok ⟨r.count⟩, ⟨coll2, r.refColl, st.log ++ r.events⟩)
  else
    (.error invalidStatusUpdateError, ⟨syncColl1, st.refColl, st.log⟩)

/-- Target credential-status descriptor of the current release: a `type`
and a `statusPurpose` to match, both required by validation (spec section
4.2). -/
structure TargetStatus where
  type : String
  statusPurpose : String
deriving DecidableEq, Repr

/-- Modelled from the spec (section 4.4): a candidate status entry matches
the target descriptor when every key present in the target is present and
equal-valued on the candidate; the minimal target carries `type` and
`statusPurpose`. -/
def specStatusMatches (target : TargetStatus) (cs : StatusEntry) : Bool :=
  cs.type == target.type && cs.statusPurpose == some target.statusPurpose

/-- Modelled from the spec (section 4.4): the candidate entries of a
credential that match the target descriptor. -/
def specMatchList (vc : VC) (target : TargetStatus) : List StatusEntry :=
  vc.credentialStatus.filter (specStatusMatches target)

/-- Modelled from the spec (section 7, ambiguous-match error): the failure
raised when more than one status entry matches a target descriptor. -/
def ambiguousMatchError (statusPurpose : String) : BError :=
  ⟨"ConstraintError",
    "Could not update verifiable credential status; more than one status entry matches status purpose \""
      ++ statusPurpose ++ "\".",
    409⟩

/-- Modelled from the spec (section 4.4): status matching of the current
release's `_matchCredentialStatus`, which is not under src/ (only older
drafts of sync.js are); exactly one match is required — zero matches is the
not-found failure listed in section 7, more than one the ambiguous-match
failure (expansion is not exercised by the claims and is omitted). -/
def matchCredentialStatusSpec (vc : VC) (target : TargetStatus) :
    Except BError StatusEntry :=
  match specMatchList vc target with
  | [] => .error (statusEntryNotFoundError target.statusPurpose)
  | [cs] => .ok cs
  | _ => .error (ambiguousMatchError target.statusPurpose)

/-- Modelled from the spec (section 3, status update descriptor): the
strict, validated form of a change descriptor of the current release —
target credential, optional `referenceUpdate` fields (absence means a
remote-only change), the target status descriptor and the boolean value. -/
structure SpecStatusUpdate where
  credentialId : String
  referenceUpdate : Option (List (String × String))
  target : TargetStatus
  value : Bool
deriving DecidableEq, Repr

/-- Merge of `referenceUpdate` fields over the existing reference fields
(update wins per key, existing fields are kept otherwise), per spec section
4.3 step 6. -/
def mergeFields (oldFields newFields : List (String × String)) :
    List (String × String) :=
  (oldFields.filter (fun kv =>
    (newFields.find? (fun kv2 => kv2.1 == kv.1)).isNone)) ++ newFields

/-- Modelled from the spec (section 4.3): per-change unit application of the
current release's `_updateStatus`, which is not under src/ — fetch the VC
and resolve the reference record, match exactly one status entry, write the
remote status, then only when `referenceUpdate` was supplied replace the
local reference record with the merged fields and `sequence + 1`; failures
are wrapped into the per-credential operation error. -/
def specUpdateStatusCore (env : Env) (refColl : List Reference)
    (u : SpecStatusUpdate) : UnitResult :=
  let c := u.credentialId
  match env.fetchVC c, vcReferences.get refColl c with
  | .error _, _ => ⟨some (couldNotSyncError c), refColl, [.remoteRead c]⟩
  | .ok _, .error _ => ⟨some (couldNotSyncError c), refColl, [.remoteRead c]⟩
  | .ok vc, .ok ref =>
    match matchCredentialStatusSpec vc u.target with
    | .error _ => ⟨some (couldNotSyncError c), refColl, [.remoteRead c]⟩
    | .ok entry =>
      match env.writeStatus c entry (some u.value) with
      | .error _ =>
        ⟨some (couldNotSyncError c), refColl, [.remoteRead c, .remoteWrite c]⟩
      | .ok _ =>
        match u.referenceUpdate with
        | none => ⟨none, refColl, [.remoteRead c, .remoteWrite c]⟩
        | some fs =>
          match vcReferences.update refColl
              ⟨c, ref.sequence + 1, mergeFields ref.fields fs⟩ with
          | (.error _, coll2) =>
            ⟨some (couldNotSyncError c), coll2,
              [.remoteRead c, .remoteWrite c, .localWrite c]⟩
          | (.ok _, coll2) =>
            ⟨none, coll2, [.remoteRead c, .remoteWrite c, .localWrite c]⟩

/-- Modelled from the spec (sections 4.1 step 5 and 7): queue driving of the
current release, which is not under src/ — each unit retries once; the first
terminal failure is kept, the remaining (not-yet-started) units are no
longer scheduled, and the count reports the successfully applied units. -/
def specProcess (env : Env) :
    List Reference → List SpecStatusUpdate → ProcResult
  | refColl, [] => ⟨refColl, [], 0, none⟩
  | refColl, u :: us =>
    let r := runWithRetry (specUpdateStatusCore env) refColl u
    match r.err with
    | some e => ⟨r.refColl, r.events, 0, some e⟩
    | none =>
      let rest := specProcess env r.refColl us
      ⟨rest.refColl, r.events ++ rest.events, rest.count + 1, rest.err⟩

/-- One page of the current release's `getStatusUpdates`: validated update
descriptors plus the new cursor. -/
structure SpecPage where
  updates : List SpecStatusUpdate
  cursor : Cursor
deriving Repr

/-- Resolved value of the current release's `syncCredentialStatus`:
`updateCount` plus the `hasMore` signal (CHANGELOG 2.4.0). -/
structure SpecSyncResult where
  updateCount : Nat
  hasMore : Bool
deriving DecidableEq, Repr

/-- Modelled from the spec (section 4.1): the current release's
`syncCredentialStatus`, which is not under src/ (only older drafts, its
tests and the CHANGELOG are) — load or lazily create the named sync record,
fetch one page, drive the queue aborting on the first terminal failure, and
only on full success store the new cursor with `sequence + 1` and resolve to
the applied count together with the new cursor's `hasMore` flag (descriptor
validation is by typing here and the claims settled against this model do
not concern it). -/
def syncCredentialStatusSpec (env : Env)
    (getStatusUpdates : Option Cursor → SpecPage) (syncId : String)
    (st : CoordState) : Except BError SpecSyncResult × CoordState :=
  let rec1 := syncRecords.getCreate st.syncColl syncId
  let syncRecord := rec1.1
  let syncColl1 := rec1.2
  let page := getStatusUpdates syncRecord.cursor
  let r := specProcess env st.refColl page.updates
  match r.err with
  | some e => (.error e, ⟨syncColl1, r.refColl, st.log ++ r.events⟩)
  | none =>
    match syncRecords.update syncColl1
        ⟨syncRecord.id, syncRecord.sequence + 1, some page.cursor⟩ with
    | (.error e, coll2) =>
      (.error e, ⟨coll2, r.refColl, st.log ++ r.events⟩)
    | (.ok _, coll2) =>
      (.ok ⟨r.count, page.cursor.hasMore⟩, ⟨coll2, r.refColl, st.log ++ r.events⟩)

/-- Concrete full status entry used by the witnesses. -/
def entryFull : StatusEntry :=
  ⟨"BitstringStatusListEntry", some "revocation", none, none, none, none⟩

/-- Concrete credential carrying one matching status entry. -/
def vcOne : VC := ⟨[entryFull]⟩

/-- Remote API where every call succeeds, used by the witnesses. -/
def envOk : Env := ⟨fun _ => .ok vcOne, fun _ _ _ => .ok ()⟩

/-- Remote API where every call fails, used by the witnesses. -/
def envFail : Env :=
  ⟨fun _ =>
      .error ⟨"OperationError", "Could not get verifiable credential.", 500⟩,
    fun _ _ _ =>
      .error
        ⟨"OperationError", "Could not update verifiable credential status.",
          500⟩⟩

/-- Concrete well-formed status update object. -/
def updOk : StatusUpdate :=
  ⟨"cred1", some [("k", "v")], some (.token "t1"), some (.token "t2"),
    some ⟨some ⟨"BitstringStatusListEntry", some "revocation"⟩, some true⟩⟩

/-- Concrete malformed status update object (its `status` is missing). -/
def updBad : StatusUpdate := ⟨"cred1", none, none, none, none⟩

/-- Concrete starting state: one reference record, one sync record, empty
side-effect log. -/
def stStart : CoordState :=
  ⟨[⟨"sync1", 0, none⟩], [⟨"cred1", 0, []⟩], []⟩

/-- Page function returning the single well-formed update. -/
def pageFnOk : Option Cursor → Page := fun _ => ⟨[updOk], ⟨false, 1⟩⟩

/-- Page function whose page contains a malformed update. -/
def pageFnBad : Option Cursor → Page := fun _ => ⟨[updOk, updBad], ⟨false, 1⟩⟩

/-- Concrete validated spec update without `referenceUpdate`. -/
def specUpdNoRef : SpecStatusUpdate :=
  ⟨"cred1", none, ⟨"BitstringStatusListEntry", "revocation"⟩, true⟩

/-- Concrete validated spec update with `referenceUpdate`. -/
def specUpdWithRef : SpecStatusUpdate :=
  ⟨"cred1", some [("k", "v")], ⟨"BitstringStatusListEntry", "revocation"⟩,
    true⟩

/-- Page function for the spec-engine witnesses: one update, new cursor with
`hasMore := true`. -/
def specPageFnOk : Option Cursor → SpecPage :=
  fun _ => ⟨[specUpdWithRef], ⟨true, 7⟩⟩

/-- Concrete second spec update for the C9 witness queue. -/
def specUpd2 : SpecStatusUpdate :=
  ⟨"cred2", none, ⟨"BitstringStatusListEntry", "revocation"⟩, false⟩

/-- An `updateOne` finds a document to replace exactly when some record
satisfies the query. -/
theorem mongoUpdateOne_isSome_iff {α : Type} (q : α → Bool) (repl : α) :
    ∀ l : List α, (mongoUpdateOne q repl l).isSome = true ↔ ∃ x ∈ l, q x = true
  | [] => by simp [mongoUpdateOne]
  | x :: xs => by
    by_cases h : q x = true
    · simp [mongoUpdateOne, h]
    · simp [mongoUpdateOne, h, mongoUpdateOne_isSome_iff q repl xs]

/-- Inversion of a reference-record lookup: membership and key equality. -/
theorem findRef_some {coll : List Reference} {cid : String} {r : Reference}
    (h : findRef coll cid = some r) : r ∈ coll ∧ r.credentialId = cid := by
  unfold findRef at h
  have hp := List.find?_some h
  exact ⟨List.mem_of_find?_eq_some h, eq_of_beq hp⟩

/-- Inversion of a sync-record lookup: membership and key equality. -/
theorem findSync_some {coll : List SyncData} {id : String} {s : SyncData}
    (h : findSync coll id = some s) : s ∈ coll ∧ s.id = id := by
  unfold findSync at h
  have hp := List.find?_some h
  exact ⟨List.mem_of_find?_eq_some h, eq_of_beq hp⟩

/-- In a list whose keys are pairwise distinct, two members with the same
key are the same record. -/
theorem pairwise_key_unique {α κ : Type} (key : α → κ) :
    ∀ l : List α, l.Pairwise (fun a b => key a ≠ key b) →
      ∀ x ∈ l, ∀ y ∈ l, key x = key y → x = y
  | [], _, x, hx, _, _, _ => absurd hx (List.not_mem_nil x)
  | a :: t, h, x, hx, y, hy, hk => by
    rcases List.pairwise_cons.mp h with ⟨ha, ht⟩
    rcases List.mem_cons.mp hx with rfl | hx2
    · rcases List.mem_cons.mp hy with rfl | hy2
      · rfl
      · exact absurd hk (ha y hy2)
    · rcases List.mem_cons.mp hy with rfl | hy2
      · exact absurd hk.symm (ha x hx2)
      · exact pairwise_key_unique key t ht x hx2 y hy2 hk

/-- With a unique `credentialId` key, `vcReferences.update` succeeds exactly
when the submitted `sequence - 1` equals the stored record's `sequence`. -/
theorem refUpdate_ok_iff (refColl : List Reference) (newRef r : Reference)
    (hru : refColl.Pairwise (fun a b => a.credentialId ≠ b.credentialId))
    (hr : findRef refColl newRef.credentialId = some r) :
    (vcReferences.update refColl newRef).1 = .ok () ↔
      newRef.sequence - 1 = r.sequence := by
  have hrmem : r ∈ refColl := (findRef_some hr).1
  have hrkey : r.credentialId = newRef.credentialId := (findRef_some hr).2
  constructor
  · intro hok
    cases hmu : mongoUpdateOne
        (fun x => x.credentialId == newRef.credentialId &&
          x.sequence == newRef.sequence - 1) newRef refColl with
    | none => simp [vcReferences.update, hmu] at hok
    | some coll2 =>
      have hsome : (mongoUpdateOne
          (fun x => x.credentialId == newRef.credentialId &&
            x.sequence == newRef.sequence - 1) newRef refColl).isSome = true := by
        rw [hmu]; rfl
      rcases (mongoUpdateOne_isSome_iff _ _ refColl).mp hsome with ⟨x, hxmem, hxq⟩
      rw [Bool.and_eq_true] at hxq
      have hxkey : x.credentialId = newRef.credentialId := eq_of_beq hxq.1
      have hxr : x = r :=
        pairwise_key_unique Reference.credentialId refColl hru x hxmem r hrmem
          (hxkey.trans hrkey.symm)
      have hxseq : x.sequence = newRef.sequence - 1 := eq_of_beq hxq.2
      rw [hxr] at hxseq
      exact hxseq.symm
  · intro hseq
    have hq : (fun x : Reference => x.credentialId == newRef.credentialId &&
        x.sequence == newRef.sequence - 1) r = true := by
      simp [hrkey, hseq.symm]
    have hsome : (mongoUpdateOne
        (fun x => x.credentialId == newRef.credentialId &&
          x.sequence == newRef.sequence - 1) newRef refColl).isSome = true :=
      (mongoUpdateOne_isSome_iff _ _ refColl).mpr ⟨r, hrmem, hq⟩
    cases hmu : mongoUpdateOne
        (fun x => x.credentialId == newRef.credentialId &&
          x.sequence == newRef.sequence - 1) newRef refColl with
    | none => rw [hmu] at hsome; simp at hsome
    | some coll2 => simp [vcReferences.update, hmu]

/-- With a unique `credentialId` key, a sequence mismatch makes
`vcReferences.update` fail with the conflict error and leave the collection
unchanged. -/
theorem refUpdate_conflict (refColl : List Reference) (newRef r : Reference)
    (hru : refColl.Pairwise (fun a b => a.credentialId ≠ b.credentialId))
    (hr : findRef refColl newRef.credentialId = some r)
    (hne : newRef.sequence - 1 ≠ r.sequence) :
    vcReferences.update refColl newRef
      = (.error refSequenceConflictError, refColl) := by
  have hrmem : r ∈ refColl := (findRef_some hr).1
  have hrkey : r.credentialId = newRef.credentialId := (findRef_some hr).2
  cases hmu : mongoUpdateOne
      (fun x => x.credentialId == newRef.credentialId &&
        x.sequence == newRef.sequence - 1) newRef refColl with
  | none => simp [vcReferences.update, hmu]
  | some coll2 =>
    have hsome : (mongoUpdateOne
        (fun x => x.credentialId == newRef.credentialId &&
          x.sequence == newRef.sequence - 1) newRef refColl).isSome = true := by
      rw [hmu]; rfl
    rcases (mongoUpdateOne_isSome_iff _ _ refColl).mp hsome with ⟨x, hxmem, hxq⟩
    rw [Bool.and_eq_true] at hxq
    have hxr : x = r :=
      pairwise_key_unique Reference.credentialId refColl hru x hxmem r hrmem
        ((eq_of_beq hxq.1).trans hrkey.symm)
    have hxseq : x.sequence = newRef.sequence - 1 := eq_of_beq hxq.2
    rw [hxr] at hxseq
    exact absurd hxseq.symm hne

/-- With a unique `id` key, the sync-record `update` succeeds exactly when
the submitted `sequence - 1` equals the stored record's `sequence`. -/
theorem syncUpdate_ok_iff (syncColl : List SyncData) (newSync s : SyncData)
    (hsu : syncColl.Pairwise (fun a b => a.id ≠ b.id))
    (hs : findSync syncColl newSync.id = some s) :
    (syncRecords.update syncColl newSync).1 = .ok () ↔
      newSync.sequence - 1 = s.sequence := by
  have hsmem : s ∈ syncColl := (findSync_some hs).1
  have hskey : s.id = newSync.id := (findSync_some hs).2
  constructor
  · intro hok
    cases hmu : mongoUpdateOne
        (fun x => x.id == newSync.id && x.sequence == newSync.sequence - 1)
        newSync syncColl with
    | none => simp [syncRecords.update, hmu] at hok
    | some coll2 =>
      have hsome : (mongoUpdateOne
          (fun x => x.id == newSync.id && x.sequence == newSync.sequence - 1)
          newSync syncColl).isSome = true := by
        rw [hmu]; rfl
      rcases (mongoUpdateOne_isSome_iff _ _ syncColl).mp hsome with ⟨x, hxmem, hxq⟩
      rw [Bool.and_eq_true] at hxq
      have hxs : x = s :=
        pairwise_key_unique SyncData.id syncColl hsu x hxmem s hsmem
          ((eq_of_beq hxq.1).trans hskey.symm)
      have hxseq : x.sequence = newSync.sequence - 1 := eq_of_beq hxq.2
      rw [hxs] at hxseq
      exact hxseq.symm
  · intro hseq
    have hq : (fun x : SyncData => x.id == newSync.id &&
        x.sequence == newSync.sequence - 1) s = true := by
      simp [hskey, hseq.symm]
    have hsome : (mongoUpdateOne
        (fun x => x.id == newSync.id && x.sequence == newSync.sequence - 1)
        newSync syncColl).isSome = true :=
      (mongoUpdateOne_isSome_iff _ _ syncColl).mpr ⟨s, hsmem, hq⟩
    cases hmu : mongoUpdateOne
        (fun x => x.id == newSync.id && x.sequence == newSync.sequence - 1)
        newSync syncColl with
    | none => rw [hmu] at hsome; simp at hsome
    | some coll2 => simp [syncRecords.update, hmu]

/-- With a unique `id` key, a sequence mismatch makes the sync-record
`update` fail with the conflict error and leave the collection unchanged. -/
theorem syncUpdate_conflict (syncColl : List SyncData) (newSync s : SyncData)
    (hsu : syncColl.Pairwise (fun a b => a.id ≠ b.id))
    (hs : findSync syncColl newSync.id = some s)
    (hne : newSync.sequence - 1 ≠ s.sequence) :
    syncRecords.update syncColl newSync
      = (.error syncSequenceConflictError, syncColl) := by
  have hsmem : s ∈ syncColl := (findSync_some hs).1
  have hskey : s.id = newSync.id := (findSync_some hs).2
  cases hmu : mongoUpdateOne
      (fun x => x.id == newSync.id && x.sequence == newSync.sequence - 1)
      newSync syncColl with
  | none => simp [syncRecords.update, hmu]
  | some coll2 =>
    have hsome : (mongoUpdateOne
        (fun x => x.id == newSync.id && x.sequence == newSync.sequence - 1)
        newSync syncColl).isSome = true := by
      rw [hmu]; rfl
    rcases (mongoUpdateOne_isSome_iff _ _ syncColl).mp hsome with ⟨x, hxmem, hxq⟩
    rw [Bool.and_eq_true] at hxq
    have hxs : x = s :=
      pairwise_key_unique SyncData.id syncColl hsu x hxmem s hsmem
        ((eq_of_beq hxq.1).trans hskey.symm)
    have hxseq : x.sequence = newSync.sequence - 1 := eq_of_beq hxq.2
    rw [hxs] at hxseq
    exact absurd hxseq.symm hne

/-- Claim C2: for every reference record and every sync progress record, an
update operation (`vcReferences.update` / the sync-record `update`) succeeds
if and only if the submitted `sequence` minus 1 equals the stored
`sequence`; on a mismatch it throws a conflict error (`InvalidStateError`,
HTTP 409) and the stored record is left unchanged. -/
theorem update_sequence_gated
    (refColl : List Reference) (newRef r : Reference)
    (syncColl : List SyncData) (newSync s : SyncData)
    (hru : refColl.Pairwise (fun a b => a.credentialId ≠ b.credentialId))
    (hr : findRef refColl newRef.credentialId = some r)
    (hsu : syncColl.Pairwise (fun a b => a.id ≠ b.id))
    (hs : findSync syncColl newSync.id = some s) :
    ((vcReferences.update refColl newRef).1 = .ok () ↔
      newRef.sequence - 1 = r.sequence)
    ∧ (newRef.sequence - 1 ≠ r.sequence →
        vcReferences.update refColl newRef
          = (.error refSequenceConflictError, refColl))
    ∧ refSequenceConflictError.name = "InvalidStateError"
    ∧ refSequenceConflictError.httpStatusCode = 409
    ∧ ((syncRecords.update syncColl newSync).1 = .ok () ↔
      newSync.sequence - 1 = s.sequence)
    ∧ (newSync.sequence - 1 ≠ s.sequence →
        syncRecords.update syncColl newSync
          = (.error syncSequenceConflictError, syncColl))
    ∧ syncSequenceConflictError.name = "InvalidStateError"
    ∧ syncSequenceConflictError.httpStatusCode = 409 :=
  ⟨refUpdate_ok_iff refColl newRef r hru hr,
    refUpdate_conflict refColl newRef r hru hr,
    rfl, rfl,
    syncUpdate_ok_iff syncColl newSync s hsu hs,
    syncUpdate_conflict syncColl newSync s hsu hs,
    rfl, rfl⟩

/-- Witness for C2 at concrete stores: a matching submitted sequence
succeeds in both stores, a mismatching one fails with the conflict error
leaving the collection unchanged. -/
theorem update_sequence_gated_witness :
    (vcReferences.update [⟨"c", 0, []⟩] ⟨"c", 1, []⟩).1 = .ok ()
    ∧ vcReferences.update [⟨"c", 0, []⟩] ⟨"c", 5, []⟩
        = (.error refSequenceConflictError, [⟨"c", 0, []⟩])
    ∧ (syncRecords.update [⟨"s", 3, none⟩] ⟨"s", 4, none⟩).1 = .ok ()
    ∧ syncRecords.update [⟨"s", 3, none⟩] ⟨"s", 9, none⟩
        = (.error syncSequenceConflictError, [⟨"s", 3, none⟩]) :=
  ⟨(update_sequence_gated [⟨"c", 0, []⟩] ⟨"c", 1, []⟩ ⟨"c", 0, []⟩
      [⟨"s", 3, none⟩] ⟨"s", 4, none⟩ ⟨"s", 3, none⟩
      (by decide) (by decide) (by decide) (by decide)).1.mpr (by decide),
    (update_sequence_gated [⟨"c", 0, []⟩] ⟨"c", 5, []⟩ ⟨"c", 0, []⟩
      [⟨"s", 3, none⟩] ⟨"s", 4, none⟩ ⟨"s", 3, none⟩
      (by decide) (by decide) (by decide) (by decide)).2.1 (by decide),
    (update_sequence_gated [⟨"c", 0, []⟩] ⟨"c", 1, []⟩ ⟨"c", 0, []⟩
      [⟨"s", 3, none⟩] ⟨"s", 4, none⟩ ⟨"s", 3, none⟩
      (by decide) (by decide) (by decide) (by decide)).2.2.2.2.1.mpr (by decide),
    (update_sequence_gated [⟨"c", 0, []⟩] ⟨"c", 1, []⟩ ⟨"c", 0, []⟩
      [⟨"s", 3, none⟩] ⟨"s", 9, none⟩ ⟨"s", 3, none⟩
      (by decide) (by decide) (by decide) (by decide)).2.2.2.2.2.1 (by decide)⟩

/-- A sync-record lookup that finds the record makes the lazy-creating `get`
return it with the collection untouched. -/
theorem getCreate_of_found (coll : List SyncData) (id : String) (r : SyncData)
    (h : findSync coll id = some r) :
    syncRecords.getCreate coll id = (r, coll) := by
  unfold syncRecords.getCreate
  rw [h]

/-- A queue pass that captured no error completed every unit of the page. -/
theorem srcProcess_count_of_no_err (env : Env) :
    ∀ (refColl : List Reference) (us : List StatusUpdate),
      (srcProcess env refColl us).err = none →
      (srcProcess env refColl us).count = us.length
  | _, [], _ => rfl
  | refColl, u :: us, h => by
    unfold srcProcess at h ⊢
    cases hr : (runWithRetry (updateStatusCore env) refColl u).err with
    | none =>
      simp only [hr] at h ⊢
      exact congrArg Nat.succ (srcProcess_count_of_no_err env _ us h)
    | some e =>
      simp only [hr] at h
      cases hre : (srcProcess env
          (runWithRetry (updateStatusCore env) refColl u).refColl us).err with
      | none => simp [hre] at h
      | some e2 => simp [hre] at h

/-- Claim C1: for every invocation of `syncCredentialStatus` in which at
least one change-unit fails terminally (fails again after its retry), the
sync progress record's `sequence` and `cursor` after the call equal their
values before the call: the progress-record update is never performed when
any per-unit error was captured. -/
theorem syncSrc_cursor_unchanged_on_unit_failure
    (env : Env) (getStatusUpdates : Option Cursor → Page) (syncId : String)
    (st : CoordState) (rec : SyncData)
    (hbefore : findSync st.syncColl syncId = some rec)
    (hfail : (srcProcess env st.refColl
        (getStatusUpdates rec.cursor).updates).err.isSome = true) :
    findSync
      (syncCredentialStatusSrc env getStatusUpdates syncId st).2.syncColl
      syncId = some rec := by
  unfold syncCredentialStatusSrc
  rw [getCreate_of_found st.syncColl syncId rec hbefore]
  cases hall : (getStatusUpdates rec.cursor).updates.all validStatusUpdate with
  | false => simpa [hall] using hbefore
  | true =>
    rcases Option.isSome_iff_exists.mp hfail with ⟨e, he⟩
    simpa [hall, he] using hbefore

/-- Claim C6: for every page of updates returned by the paging function,
every update descriptor's shape is validated before any side-effecting work
begins; if any single descriptor is malformed, the whole pass aborts with
the validation error, zero units are executed, and no remote call or store
write occurs (the entire state, including the side-effect log, is the state
before the call). -/
theorem syncSrc_invalid_descriptor_no_side_effects
    (env : Env) (getStatusUpdates : Option Cursor → Page) (syncId : String)
    (st : CoordState) (rec : SyncData)
    (hbefore : findSync st.syncColl syncId = some rec)
    (hinvalid : (getStatusUpdates rec.cursor).updates.all validStatusUpdate
      = false) :
    syncCredentialStatusSrc env getStatusUpdates syncId st
      = (.error invalidStatusUpdateError, st) := by
  unfold syncCredentialStatusSrc
  rw [getCreate_of_found st.syncColl syncId rec hbefore]
  simp [hinvalid]

/-- Claim C10: whenever `syncCredentialStatus` returns normally, the
returned `updateCount` equals the number of updates in the fetched page — a
normal return means every change-unit succeeded, so a caller can never
observe a partial count from a successful call. -/
theorem syncSrc_ok_implies_full_page
    (env : Env) (getStatusUpdates : Option Cursor → Page) (syncId : String)
    (st : CoordState) (res : SyncResult) (st2 : CoordState)
    (h : syncCredentialStatusSrc env getStatusUpdates syncId st
      = (.ok res, st2)) :
    res.updateCount = (getStatusUpdates
        (syncRecords.getCreate st.syncColl syncId).1.cursor).updates.length
      := by
  unfold syncCredentialStatusSrc at h
  cases hall : (getStatusUpdates
      (syncRecords.getCreate st.syncColl syncId).1.cursor).updates.all
      validStatusUpdate with
  | false => simp [hall] at h
  | true =>
    simp only [hall, if_true] at h
    cases hre : (srcProcess env st.refColl
        (getStatusUpdates
          (syncRecords.getCreate st.syncColl syncId).1.cursor).updates).err
        with
    | some e => simp [hre] at h
    | none =>
      simp only [hre] at h
      cases hup : syncRecords.update
          (syncRecords.getCreate st.syncColl syncId).2
          ⟨(syncRecords.getCreate st.syncColl syncId).1.id,
            (syncRecords.getCreate st.syncColl syncId).1.sequence + 1,
            some (getStatusUpdates
              (syncRecords.getCreate st.syncColl syncId).1.cursor).cursor⟩ with
      | mk outcome coll2 =>
        cases outcome with
        | error e => simp [hup] at h
        | ok v =>
          simp only [hup] at h
          have hres : res = ⟨(srcProcess env st.refColl
              ((getStatusUpdates
                (syncRecords.getCreate st.syncColl syncId).1.cursor).updates)
              ).count⟩ := by
            have := congrArg Prod.fst h
            simp at this
            exact this.symm
          rw [hres]
          exact srcProcess_count_of_no_err env st.refColl _ hre

/-- Inversion of a successful reference-record `get`. -/
theorem vcReferences_get_ok {coll : List Reference} {cid : String}
    {r : Reference} (h : vcReferences.get coll cid = .ok r) :
    findRef coll cid = some r := by
  unfold vcReferences.get at h
  cases hf : findRef coll cid with
  | none => rw [hf] at h; exact absurd h (by simp)
  | some x => rw [hf] at h; cases h; rfl

/-- Claim C8: within every single change-unit, the remote status write
strictly precedes the local reference-record update, and the local store
write is never issued before the remote write has completed successfully:
the unit's event trace is one of the three prefixes of
remote-read, remote-write, local-write, and a trace containing the local
write implies the remote status write returned success. -/
theorem updateStatus_remote_precedes_local
    (env : Env) (refColl : List Reference) (u : StatusUpdate) :
    ((updateStatusCore env refColl u).events = [.remoteRead u.credentialId]
      ∨ (updateStatusCore env refColl u).events
          = [.remoteRead u.credentialId, .remoteWrite u.credentialId]
      ∨ (updateStatusCore env refColl u).events
          = [.remoteRead u.credentialId, .remoteWrite u.credentialId,
              .localWrite u.credentialId])
    ∧ (Event.localWrite u.credentialId ∈ (updateStatusCore env refColl u).events →
        ∃ vc ref entry, env.fetchVC u.credentialId = .ok vc
          ∧ findRef refColl u.credentialId = some ref
          ∧ matchCredentialStatusSrc vc (statusPurposeOf u) = .ok entry
          ∧ env.writeStatus u.credentialId entry (statusValueOf u) = .ok ()) := by
  cases hf : env.fetchVC u.credentialId with
  | error e =>
    constructor
    · left
      simp [updateStatusCore, hf]
    · intro hmem
      simp [updateStatusCore, hf] at hmem
  | ok vc =>
    cases hg : vcReferences.get refColl u.credentialId with
    | error e =>
      constructor
      · left
        simp [updateStatusCore, hf, hg]
      · intro hmem
        simp [updateStatusCore, hf, hg] at hmem
    | ok ref =>
      cases hm : matchCredentialStatusSrc vc (statusPurposeOf u) with
      | error e =>
        constructor
        · left
          simp [updateStatusCore, hf, hg, hm]
        · intro hmem
          simp [updateStatusCore, hf, hg, hm] at hmem
      | ok entry =>
        cases hw : env.writeStatus u.credentialId entry (statusValueOf u) with
        | error e =>
          constructor
          · right; left
            simp [updateStatusCore, hf, hg, hm, hw]
          · intro hmem
            simp [updateStatusCore, hf, hg, hm, hw] at hmem
        | ok v =>
          cases v
          cases hvu : vcReferences.update refColl
              ⟨u.credentialId, ref.sequence + 1,
                (u.newReferenceFields).getD []⟩ with
          | mk outcome coll2 =>
            cases outcome with
            | error e2 =>
              constructor
              · right; right
                simp [updateStatusCore, hf, hg, hm, hw, hvu]
              · intro _
                exact ⟨vc, ref, entry, rfl, vcReferences_get_ok hg, hm, hw⟩
            | ok v2 =>
              constructor
              · right; right
                simp [updateStatusCore, hf, hg, hm, hw, hvu]
              · intro _
                exact ⟨vc, ref, entry, rfl, vcReferences_get_ok hg, hm, hw⟩

/-- Witness for C1: with a failing remote API, the unit fails terminally and
the stored sync record is unchanged after the call. -/
theorem syncSrc_cursor_unchanged_on_unit_failure_witness :
    findSync
      (syncCredentialStatusSrc envFail pageFnOk "sync1" stStart).2.syncColl
      "sync1" = some ⟨"sync1", 0, none⟩ :=
  syncSrc_cursor_unchanged_on_unit_failure envFail pageFnOk "sync1" stStart
    ⟨"sync1", 0, none⟩ (by decide) (by decide)

/-- Witness for C6: a page with one malformed descriptor aborts with the
validation error and the state (including the side-effect log) is exactly
the state before the call. -/
theorem syncSrc_invalid_descriptor_no_side_effects_witness :
    syncCredentialStatusSrc envOk pageFnBad "sync1" stStart
      = (.error invalidStatusUpdateError, stStart) :=
  syncSrc_invalid_descriptor_no_side_effects envOk pageFnBad "sync1" stStart
    ⟨"sync1", 0, none⟩ (by decide) (by decide)

/-- Witness for C10: a successful call over a one-update page reports
`updateCount` equal to the page length. -/
theorem syncSrc_ok_implies_full_page_witness :
    (⟨1⟩ : SyncResult).updateCount
      = (pageFnOk
          (syncRecords.getCreate stStart.syncColl "sync1").1.cursor
        ).updates.length :=
  syncSrc_ok_implies_full_page envOk pageFnOk "sync1" stStart ⟨1⟩
    ⟨[⟨"sync1", 1, some ⟨false, 1⟩⟩], [⟨"cred1", 1, [("k", "v")]⟩],
      [.remoteRead "cred1", .remoteWrite "cred1", .localWrite "cred1"]⟩
    rfl

/-- Witness for C8: on a fully successful unit the trace is exactly
remote-read, remote-write, local-write, and the remote status write
succeeded before the local write was issued. -/
theorem updateStatus_remote_precedes_local_witness :
    ((updateStatusCore envOk [⟨"cred1", 0, []⟩] updOk).events
        = [.remoteRead updOk.credentialId]
      ∨ (updateStatusCore envOk [⟨"cred1", 0, []⟩] updOk).events
        = [.remoteRead updOk.credentialId, .remoteWrite updOk.credentialId]
      ∨ (updateStatusCore envOk [⟨"cred1", 0, []⟩] updOk).events
        = [.remoteRead updOk.credentialId, .remoteWrite updOk.credentialId,
            .localWrite updOk.credentialId])
    ∧ (∃ vc ref entry, envOk.fetchVC updOk.credentialId = .ok vc
        ∧ findRef [⟨"cred1", 0, []⟩] updOk.credentialId = some ref
        ∧ matchCredentialStatusSrc vc (statusPurposeOf updOk) = .ok entry
        ∧ envOk.writeStatus updOk.credentialId entry (statusValueOf updOk)
            = .ok ()) :=
  ⟨(updateStatus_remote_precedes_local envOk [⟨"cred1", 0, []⟩] updOk).1,
    (updateStatus_remote_precedes_local envOk [⟨"cred1", 0, []⟩] updOk).2
      (by decide)⟩

/-- Claim C7: `expandCredentialStatus` applied to an entry already of the
full type (`BitstringStatusListEntry`) returns it unchanged; applied to a
compact entry (`TerseBitstringStatusListEntry`) with index `i`, list length
`L` and purpose `p` it returns an entry whose `statusListIndex` is the
string encoding of `i mod L` and whose `statusListCredential` is the base
URL followed by the purpose and `floor(i / L)`; applied to any other type it
throws the type error (under `0 ≤ i` and `0 < L` the truncated JS remainder
`Int.tmod` and flooring `Int.fdiv` of the code agree with `i % L` and
`i / L`, as the bridging conjuncts record). -/
theorem expandCredentialStatus_correct
    (entry : StatusEntry) (p : String) (L i : Int) (b : String)
    (hi : 0 ≤ i) (hL : 0 < L) :
    (entry.type = "BitstringStatusListEntry" →
      expandCredentialStatus entry p L = .ok entry)
    ∧ (entry.type = "TerseBitstringStatusListEntry" →
        entry.terseStatusListBaseUrl = some b →
        entry.terseStatusListIndex = some i →
        expandCredentialStatus entry p L
          = .ok ⟨"BitstringStatusListEntry", some p,
              some (b ++ "/" ++ p ++ "/" ++ toString (Int.fdiv i L)),
              some (toString (Int.tmod i L)), none, none⟩
          ∧ Int.tmod i L = i % L ∧ Int.fdiv i L = i / L)
    ∧ (entry.type ≠ "BitstringStatusListEntry" →
        entry.type ≠ "TerseBitstringStatusListEntry" →
        expandCredentialStatus entry p L
          = .error ⟨"Error",
              "Credential status entry type must be \"TerseBitstringStatusListEntry\".",
              0⟩) := by
  refine ⟨?_, ?_, ?_⟩
  · intro hfull
    simp [expandCredentialStatus, hfull]
  · intro hterse hbase hindex
    have hne : entry.type ≠ "BitstringStatusListEntry" := by
      rw [hterse]; decide
    refine ⟨?_, Int.tmod_eq_emod hi (Int.le_of_lt hL),
      Int.fdiv_eq_ediv i (Int.le_of_lt hL)⟩
    simp [expandCredentialStatus, hne, hterse, hbase, hindex]
  · intro hne1 hne2
    simp [expandCredentialStatus, hne1, hne2]

/-- Witness for C7 at the three entry kinds, using the concrete example
index 4000000001 with the default list length 67108864 (quotient 59,
remainder 40577025). -/
theorem expandCredentialStatus_correct_witness :
    expandCredentialStatus entryFull "revocation" DEFAULT_TERSE_LIST_LENGTH
        = .ok entryFull
    ∧ expandCredentialStatus
        ⟨"TerseBitstringStatusListEntry", none, none, none,
          some "https://example.com/status", some 4000000001⟩
        "revocation" DEFAULT_TERSE_LIST_LENGTH
        = .ok ⟨"BitstringStatusListEntry", some "revocation",
            some ("https://example.com/status" ++ "/" ++ "revocation" ++ "/"
              ++ toString (Int.fdiv 4000000001 DEFAULT_TERSE_LIST_LENGTH)),
            some (toString (Int.tmod 4000000001 DEFAULT_TERSE_LIST_LENGTH)),
            none, none⟩
    ∧ expandCredentialStatus
        ⟨"StatusList2021Entry", none, none, none, none, none⟩
        "revocation" DEFAULT_TERSE_LIST_LENGTH
        = .error ⟨"Error",
            "Credential status entry type must be \"TerseBitstringStatusListEntry\".",
            0⟩ :=
  ⟨(expandCredentialStatus_correct entryFull "revocation"
      DEFAULT_TERSE_LIST_LENGTH 0 "" (by decide) (by decide)).1 rfl,
    ((expandCredentialStatus_correct
      ⟨"TerseBitstringStatusListEntry", none, none, none,
        some "https://example.com/status", some 4000000001⟩
      "revocation" DEFAULT_TERSE_LIST_LENGTH 4000000001
      "https://example.com/status" (by decide) (by decide)).2.1
      rfl rfl rfl).1,
    (expandCredentialStatus_correct
      ⟨"StatusList2021Entry", none, none, none, none, none⟩
      "revocation" DEFAULT_TERSE_LIST_LENGTH 0 "" (by decide)
      (by decide)).2.2 (by decide) (by decide)⟩

/-- Claim C4: for every fetched credential whose status-entry list contains
more than one entry matching the target status descriptor (for example two
entries with the same type and statusPurpose), status matching raises the
ambiguous/conflict failure rather than silently selecting one of the
matching entries; zero matches raises the not-found failure. -/
theorem matchSpec_requires_exactly_one (vc : VC) (target : TargetStatus) :
    ((specMatchList vc target).length = 0 →
      matchCredentialStatusSpec vc target
        = .error (statusEntryNotFoundError target.statusPurpose))
    ∧ (1 < (specMatchList vc target).length →
      matchCredentialStatusSpec vc target
        = .error (ambiguousMatchError target.statusPurpose)) := by
  cases h : specMatchList vc target with
  | nil =>
    constructor
    · intro _
      simp [matchCredentialStatusSpec, h]
    · intro hlen
      simp at hlen
  | cons a t =>
    cases t with
    | nil =>
      constructor
      · intro hlen
        simp at hlen
      · intro hlen
        simp at hlen
    | cons b t2 =>
      constructor
      · intro hlen
        simp at hlen
      · intro _
        simp [matchCredentialStatusSpec, h]

/-- Witness for C4: two identical matching entries are ambiguous, an empty
entry list is not found. -/
theorem matchSpec_requires_exactly_one_witness :
    matchCredentialStatusSpec ⟨[entryFull, entryFull]⟩
        ⟨"BitstringStatusListEntry", "revocation"⟩
      = .error (ambiguousMatchError "revocation")
    ∧ matchCredentialStatusSpec ⟨[]⟩
        ⟨"BitstringStatusListEntry", "revocation"⟩
      = .error (statusEntryNotFoundError "revocation") :=
  ⟨(matchSpec_requires_exactly_one ⟨[entryFull, entryFull]⟩
      ⟨"BitstringStatusListEntry", "revocation"⟩).2 (by decide),
    (matchSpec_requires_exactly_one ⟨[]⟩
      ⟨"BitstringStatusListEntry", "revocation"⟩).1 (by decide)⟩

/-- After a successful sequence-gated replace on a collection with unique
credential ids, looking the credential up returns the new record. -/
theorem mongoUpdateOne_some_findRef (r : Reference) :
    ∀ (coll coll2 : List Reference),
      coll.Pairwise (fun a b => a.credentialId ≠ b.credentialId) →
      mongoUpdateOne (fun x => x.credentialId == r.credentialId &&
        x.sequence == r.sequence - 1) r coll = some coll2 →
      findRef coll2 r.credentialId = some r
  | [], coll2, _, h => by simp [mongoUpdateOne] at h
  | x :: xs, coll2, hp, h => by
    rcases List.pairwise_cons.mp hp with ⟨hx, hxs⟩
    by_cases hq : (x.credentialId == r.credentialId &&
        x.sequence == r.sequence - 1) = true
    · rw [mongoUpdateOne, if_pos hq] at h
      cases h
      simp [findRef, List.find?]
    · rw [mongoUpdateOne, if_neg hq] at h
      cases hmu : mongoUpdateOne (fun x => x.credentialId == r.credentialId &&
          x.sequence == r.sequence - 1) r xs with
      | none => rw [hmu] at h; simp at h
      | some l2 =>
        rw [hmu] at h
        simp only [Option.map_some', Option.some.injEq] at h
        have hex := (mongoUpdateOne_isSome_iff
          (fun x => x.credentialId == r.credentialId &&
            x.sequence == r.sequence - 1) r xs).mp (by rw [hmu]; rfl)
        rcases hex with ⟨y, hymem, hyq⟩
        rw [Bool.and_eq_true] at hyq
        have hyid : y.credentialId = r.credentialId := eq_of_beq hyq.1
        have hxne : (x.credentialId == r.credentialId) = false := by
          rw [← hyid]
          exact beq_eq_false_iff_ne.mpr (hx y hymem)
        have ih := mongoUpdateOne_some_findRef r xs l2 hxs hmu
        rw [← h]
        unfold findRef at ih ⊢
        rw [List.find?_cons, hxne]
        exact ih

/-- With a unique key and a successful update, the new record is what a
subsequent lookup returns. -/
theorem refUpdate_ok_findRef (coll : List Reference) (r : Reference)
    (coll2 : List Reference)
    (hp : coll.Pairwise (fun a b => a.credentialId ≠ b.credentialId))
    (h : vcReferences.update coll r = (.ok (), coll2)) :
    findRef coll2 r.credentialId = some r := by
  unfold vcReferences.update at h
  cases hmu : mongoUpdateOne (fun x => x.credentialId == r.credentialId &&
      x.sequence == r.sequence - 1) r coll with
  | none => rw [hmu] at h; simp at h
  | some l2 =>
    rw [hmu] at h
    simp only [Prod.mk.injEq] at h
    rw [← h.2]
    exact mongoUpdateOne_some_findRef r coll l2 hp hmu

/-- Claim C5: a change-unit whose descriptor supplies no `referenceUpdate`
performs no local reference-record mutation — the reference collection, and
in particular the record's `sequence`, keeps its prior value — while a
successful unit that does supply `referenceUpdate` replaces the record with
the merged fields and `sequence` incremented by exactly 1. -/
theorem specUnit_referenceUpdate_frame
    (env : Env) (refColl : List Reference) (u : SpecStatusUpdate)
    (ref : Reference)
    (huniq : refColl.Pairwise (fun a b => a.credentialId ≠ b.credentialId))
    (href : findRef refColl u.credentialId = some ref) :
    (u.referenceUpdate = none →
      (specUpdateStatusCore env refColl u).refColl = refColl)
    ∧ (∀ fs, u.referenceUpdate = some fs →
        (specUpdateStatusCore env refColl u).err = none →
        findRef (specUpdateStatusCore env refColl u).refColl u.credentialId
          = some ⟨u.credentialId, ref.sequence + 1,
              mergeFields ref.fields fs⟩) := by
  cases hf : env.fetchVC u.credentialId with
  | error e =>
    constructor
    · intro _
      simp [specUpdateStatusCore, hf]
    · intro fs _ herr
      simp [specUpdateStatusCore, hf] at herr
  | ok vc =>
    cases hg : vcReferences.get refColl u.credentialId with
    | error e =>
      constructor
      · intro _
        simp [specUpdateStatusCore, hf, hg]
      · intro fs _ herr
        simp [specUpdateStatusCore, hf, hg] at herr
    | ok ref0 =>
      have href0 : ref0 = ref := by
        have hh := vcReferences_get_ok hg
        rw [href] at hh
        exact (Option.some.inj hh).symm
      subst href0
      cases hm : matchCredentialStatusSpec vc u.target with
      | error e =>
        constructor
        · intro _
          simp [specUpdateStatusCore, hf, hg, hm]
        · intro fs _ herr
          simp [specUpdateStatusCore, hf, hg, hm] at herr
      | ok entry =>
        cases hw : env.writeStatus u.credentialId entry (some u.value) with
        | error e =>
          constructor
          · intro _
            simp [specUpdateStatusCore, hf, hg, hm, hw]
          · intro fs _ herr
            simp [specUpdateStatusCore, hf, hg, hm, hw] at herr
        | ok v =>
          cases v
          cases hru : u.referenceUpdate with
          | none =>
            constructor
            · intro _
              simp [specUpdateStatusCore, hf, hg, hm, hw, hru]
            · intro fs hfs
              exact absurd hfs (by simp)
          | some fs0 =>
            constructor
            · intro hnone
              exact absurd hnone (by simp)
            · intro fs hfs herr
              have hfs0 : fs0 = fs := Option.some.inj hfs
              subst hfs0
              cases hvu : vcReferences.update refColl
                  ⟨u.credentialId, ref0.sequence + 1,
                    mergeFields ref0.fields fs0⟩ with
              | mk outcome coll2 =>
                cases outcome with
                | error e2 =>
                  simp [specUpdateStatusCore, hf, hg, hm, hw, hru, hvu] at herr
                | ok v2 =>
                  cases v2
                  have hfind := refUpdate_ok_findRef refColl
                    ⟨u.credentialId, ref0.sequence + 1,
                      mergeFields ref0.fields fs0⟩ coll2 huniq hvu
                  simp only [specUpdateStatusCore, hf, hg, hm, hw, hru, hvu]
                  exact hfind

/-- Witness for C5: without `referenceUpdate` the reference collection is
untouched (`sequence` stays 0); with it, the record is replaced with
`sequence` 1 and the merged fields. -/
theorem specUnit_referenceUpdate_frame_witness :
    (specUpdateStatusCore envOk [⟨"cred1", 0, []⟩] specUpdNoRef).refColl
        = [⟨"cred1", 0, []⟩]
    ∧ findRef (specUpdateStatusCore envOk [⟨"cred1", 0, []⟩]
          specUpdWithRef).refColl "cred1"
        = some ⟨"cred1", 1, mergeFields [] [("k", "v")]⟩ :=
  ⟨(specUnit_referenceUpdate_frame envOk [⟨"cred1", 0, []⟩] specUpdNoRef
      ⟨"cred1", 0, []⟩ (by decide) (by decide)).1 rfl,
    (specUnit_referenceUpdate_frame envOk [⟨"cred1", 0, []⟩] specUpdWithRef
      ⟨"cred1", 0, []⟩ (by decide) (by decide)).2 [("k", "v")] rfl (by decide)⟩

/-- Claim C3: every successful invocation of the current release's
`syncCredentialStatus` resolves to an object containing both `updateCount`
(the number of successfully applied units) and the `hasMore` boolean taken
from the new cursor returned by the paging function. -/
theorem syncSpec_returns_updateCount_and_hasMore
    (env : Env) (getStatusUpdates : Option Cursor → SpecPage)
    (syncId : String) (st : CoordState) (res : SpecSyncResult)
    (st2 : CoordState)
    (h : syncCredentialStatusSpec env getStatusUpdates syncId st
      = (.ok res, st2)) :
    res.updateCount
        = (specProcess env st.refColl
            ((getStatusUpdates
              (syncRecords.getCreate st.syncColl syncId).1.cursor).updates)
          ).count
    ∧ res.hasMore
        = (getStatusUpdates
            (syncRecords.getCreate st.syncColl syncId).1.cursor
          ).cursor.hasMore := by
  unfold syncCredentialStatusSpec at h
  cases hre : (specProcess env st.refColl
      ((getStatusUpdates
        (syncRecords.getCreate st.syncColl syncId).1.cursor).updates)).err
      with
  | some e => simp [hre] at h
  | none =>
    simp only [hre] at h
    cases hup : syncRecords.update
        (syncRecords.getCreate st.syncColl syncId).2
        ⟨(syncRecords.getCreate st.syncColl syncId).1.id,
          (syncRecords.getCreate st.syncColl syncId).1.sequence + 1,
          some (getStatusUpdates
            (syncRecords.getCreate st.syncColl syncId).1.cursor).cursor⟩ with
    | mk outcome coll2 =>
      cases outcome with
      | error e => simp [hup] at h
      | ok v =>
        simp only [hup] at h
        have h1 := congrArg Prod.fst h
        simp at h1
        have hres : res = ⟨(specProcess env st.refColl
            ((getStatusUpdates
              (syncRecords.getCreate st.syncColl syncId).1.cursor).updates)
            ).count,
            (getStatusUpdates
              (syncRecords.getCreate st.syncColl syncId).1.cursor
            ).cursor.hasMore⟩ := h1.symm
        rw [hres]
        exact ⟨rfl, rfl⟩

/-- Witness for C3: a successful one-update pass returns `updateCount` 1 and
the `hasMore := true` flag of the new cursor. -/
theorem syncSpec_returns_updateCount_and_hasMore_witness :
    (⟨1, true⟩ : SpecSyncResult).updateCount
        = (specProcess envOk stStart.refColl
            ((specPageFnOk
              (syncRecords.getCreate stStart.syncColl "sync1").1.cursor
            ).updates)).count
    ∧ (⟨1, true⟩ : SpecSyncResult).hasMore
        = (specPageFnOk
            (syncRecords.getCreate stStart.syncColl "sync1").1.cursor
          ).cursor.hasMore :=
  syncSpec_returns_updateCount_and_hasMore envOk specPageFnOk "sync1" stStart
    ⟨1, true⟩
    ⟨[⟨"sync1", 1, some ⟨true, 7⟩⟩], [⟨"cred1", 1, [("k", "v")]⟩],
      [.remoteRead "cred1", .remoteWrite "cred1", .localWrite "cred1"]⟩
    rfl

/-- Claim C9: when a change-unit fails terminally, the first such captured
error (not a later one) is the error surfaced as the pass's result, and
not-yet-started units are no longer scheduled: over `us1 ++ u :: us2`, with
every unit of `us1` succeeding and `u` failing after its retry, the pass
equals the pass over `us1 ++ [u]` (the trailing queue is aborted) and its
error is exactly the first failing unit's error. -/
theorem specProcess_first_error_aborts (env : Env) :
    ∀ (refColl : List Reference) (us1 : List SpecStatusUpdate)
      (u : SpecStatusUpdate) (us2 : List SpecStatusUpdate),
      (specProcess env refColl us1).err = none →
      (runWithRetry (specUpdateStatusCore env)
          (specProcess env refColl us1).refColl u).err.isSome = true →
      specProcess env refColl (us1 ++ u :: us2)
          = specProcess env refColl (us1 ++ [u])
        ∧ (specProcess env refColl (us1 ++ u :: us2)).err
          = (runWithRetry (specUpdateStatusCore env)
              (specProcess env refColl us1).refColl u).err
  | refColl, [], u, us2, hok, hfail => by
    rcases Option.isSome_iff_exists.mp hfail with ⟨e, he⟩
    simp only [specProcess] at he
    constructor
    · simp only [List.nil_append, specProcess, he]
    · simp only [List.nil_append, specProcess, he]
  | refColl, a :: us1, u, us2, hok, hfail => by
    cases hr : (runWithRetry (specUpdateStatusCore env) refColl a).err with
    | some e => simp [specProcess, hr] at hok
    | none =>
      simp only [specProcess, hr, List.cons_append, List.append_eq]
        at hok hfail ⊢
      have IH := specProcess_first_error_aborts env
        (runWithRetry (specUpdateStatusCore env) refColl a).refColl
        us1 u us2 hok hfail
      exact ⟨by rw [IH.1], IH.2⟩

/-- Witness for C9: with a failing remote, a queue of two units aborts after
the first unit and surfaces that unit's error. -/
theorem specProcess_first_error_aborts_witness :
    specProcess envFail [⟨"cred1", 0, []⟩] ([] ++ specUpdNoRef :: [specUpd2])
        = specProcess envFail [⟨"cred1", 0, []⟩] ([] ++ [specUpdNoRef])
      ∧ (specProcess envFail [⟨"cred1", 0, []⟩]
          ([] ++ specUpdNoRef :: [specUpd2])).err
        = (runWithRetry (specUpdateStatusCore envFail)
            (specProcess envFail [⟨"cred1", 0, []⟩] []).refColl
            specUpdNoRef).err :=
  specProcess_first_error_aborts envFail [⟨"cred1", 0, []⟩] [] specUpdNoRef
    [specUpd2] rfl (by decide)
